import Mathlib

/-!
Shallow embedding of `src/db_engine.py`: a transactional concurrency-control
engine using two-phase locking with the wound-wait deadlock-prevention policy.

Modelling conventions (faithful to the Python source):
* Python objects (`Transaction`, `Lock`) are mutated in place and aliased from
  several containers.  `Transaction` objects are never replaced in the
  transaction table, so a transaction alias is exactly its id plus a table
  lookup at every attribute access.  `Lock` objects *can* be replaced in the
  lock table (the UNLOCKED / absent branch of `get_read_lock` / `get_write_lock`
  installs a fresh `Lock`), so each `Lock` carries a `serial` identifying the
  Python object: a local alias held across a nested call is a snapshot that is
  refreshed from the table only while the table still stores the same object
  (same serial), and writes through the alias reach the table only under the
  same condition (`refreshLock` / `writeLockBack`).
* Python lists keep their order (`append` at the tail, `remove` / `pop(0)` at
  the first occurrence / head); the Python set `locked_resources` is modelled
  as an insertion-ordered duplicate-free list.
* The unbounded mutual recursion (`get_read_lock` / `get_write_lock` call
  `engine.abort`, which calls `restart`, which replays `read`/`write`/`commit`)
  is made total with a fuel parameter; running out of fuel yields
  `Err.fuelOut`, while an uncaught Python exception (KeyError / AttributeError /
  ValueError / IndexError) yields `Err.crash`.
-/

namespace DB

inductive LockType
  | UNLOCKED
  | READ_LOCK
  | WRITE_LOCK
deriving DecidableEq, Repr

inductive TransactionState
  | ACTIVE
  | ABORTED
  | WAITING
  | COMMITTED
deriving DecidableEq, Repr

/-- A `Transaction` object: `id` and `timestamp` are immutable after creation;
`state`, `locked_resources` and `waiting_ops` are mutated in place. -/
structure Txn where
  id : Nat
  timestamp : Nat
  state : TransactionState
  locked_resources : List String
  waiting_ops : List (Char × String)
deriving DecidableEq, Repr

/-- A `Lock` object.  `serial` is not a field of the Python class: it models
Python object identity (each `Lock(item)` constructor call gets a fresh one). -/
structure Lock where
  serial : Nat
  item : String
  type : LockType
  read_locked_by : List Nat
  waiting_transactions : List Nat
  write_locked_by : Option Nat
deriving DecidableEq, Repr

/-- The whole engine state: `TransactionManager.transaction_table`,
`LockManager.lock_table`, the process-wide `Transaction.timestamp` counter, and
the fresh-object counter for lock serials. -/
structure EngineState where
  transaction_table : List (Nat × Txn)
  lock_table : List (String × Lock)
  ts_counter : Nat
  next_serial : Nat
deriving DecidableEq, Repr

/-- Association-list lookup, modelling Python `dict.__getitem__` /
`dict.__contains__`. -/
def lookupA {α β : Type} [DecidableEq α] : List (α × β) → α → Option β
  | [], _ => none
  | (k, v) :: rest, key => if k = key then some v else lookupA rest key

/-- Association-list store, modelling Python `dict.__setitem__`: replaces an
existing binding in place, otherwise appends (Python dicts keep insertion
order). -/
def updateA {α β : Type} [DecidableEq α] : List (α × β) → α → β → List (α × β)
  | [], key, v => [(key, v)]
  | (k, w) :: rest, key, v =>
      if k = key then (key, v) :: rest else (k, w) :: updateA rest key v

def getTxn (s : EngineState) (id : Nat) : Option Txn :=
  lookupA s.transaction_table id

def setTxn (s : EngineState) (t : Txn) : EngineState :=
  { s with transaction_table := updateA s.transaction_table t.id t }

def getLock (s : EngineState) (item : String) : Option Lock :=
  lookupA s.lock_table item

def setLock (s : EngineState) (l : Lock) : EngineState :=
  { s with lock_table := updateA s.lock_table l.item l }

/-- Install a freshly constructed `Lock(item)` (a new Python object) under its
item, consuming one serial number. -/
def installFresh (s : EngineState) (l : Lock) : EngineState :=
  { s with lock_table := updateA s.lock_table l.item l,
           next_serial := s.next_serial + 1 }

/-- Re-read a lock alias after a nested call: if the table still stores the
same Python object (same serial) the alias sees all its mutations, otherwise
the alias keeps pointing at the old, now-detached object. -/
def refreshLock (s : EngineState) (snap : Lock) : Lock :=
  match getLock s snap.item with
  | some l => if l.serial = snap.serial then l else snap
  | none => snap

/-- Write through a lock alias: reaches the table only while the table still
stores the same Python object, otherwise the mutation hits the detached object
and is invisible to the table. -/
def writeLockBack (s : EngineState) (snap : Lock) : EngineState :=
  match getLock s snap.item with
  | some l => if l.serial = snap.serial then setLock s snap else s
  | none => s

/-- Python `set.add` on `locked_resources`, insertion-ordered. -/
def addResource (l : List String) (item : String) : List String :=
  if item ∈ l then l else l ++ [item]

/-- Engine outcomes that escape a call: fuel exhaustion of the model, or an
uncaught Python exception. -/
inductive Err
  | fuelOut
  | crash
deriving DecidableEq, Repr

/-- `LockManager.unlock_item` (src lines 205-232): pure, no callbacks. -/
def unlock_item (s : EngineState) (item : String) (txnId : Nat) : Bool × EngineState :=
  match getLock s item with
  | none => (false, s)
  | some lock =>
    let lock1 :=
      if lock.type = LockType.READ_LOCK ∧ txnId ∈ lock.read_locked_by then
        let rl := lock.read_locked_by.erase txnId
        { lock with read_locked_by := rl,
                    type := if rl = [] then LockType.UNLOCKED else lock.type }
      else if lock.type = LockType.WRITE_LOCK ∧ lock.write_locked_by = some txnId then
        { lock with write_locked_by := none, type := LockType.UNLOCKED }
      else lock
    (decide (lock1.type = LockType.UNLOCKED), setLock s lock1)

/-- The resource-release loop shared by `commit` (lines 285-288) and `abort`
(lines 308-311): unlock every held resource, collecting those that became
unlocked, in iteration order. -/
def unlockResources : EngineState → List String → Nat → List String × EngineState
  | s, [], _ => ([], s)
  | s, r :: rest, txnId =>
    let p := unlock_item s r txnId
    let q := unlockResources p.2 rest txnId
    if p.1 then (r :: q.1, q.2) else (q.1, q.2)

/-- `TransactionManager.initiate_transaction` (lines 245-252): bumps the
process-wide timestamp counter and registers a fresh ACTIVE transaction,
rejecting duplicate ids. -/
def initiate_transaction (s : EngineState) (id : Nat) : Bool × EngineState :=
  match getTxn s id with
  | some _ => (false, s)
  | none =>
    let ts := s.ts_counter + 1
    let t : Txn := { id := id, timestamp := ts, state := TransactionState.ACTIVE,
                     locked_resources := [], waiting_ops := [] }
    (true, { s with transaction_table := updateA s.transaction_table id t,
                    ts_counter := ts })

mutual

/-- `LockManager.get_read_lock` (lines 85-131).  `txnTs` is the requester's
immutable `timestamp` attribute. -/
def get_read_lock : Nat → EngineState → String → Nat → Nat → Except Err (Bool × EngineState)
  | 0, _, _, _, _ => .error .fuelOut
  | fuel + 1, s, item, txnId, txnTs =>
    match getLock s item with
    | none =>
      let l : Lock := { serial := s.next_serial, item := item,
                        type := LockType.READ_LOCK, read_locked_by := [txnId],
                        waiting_transactions := [], write_locked_by := none }
      .ok (true, installFresh s l)
    | some lock0 =>
      if lock0.type = LockType.UNLOCKED then
        let l : Lock := { serial := s.next_serial, item := item,
                          type := LockType.READ_LOCK, read_locked_by := [txnId],
                          waiting_transactions := [], write_locked_by := none }
        .ok (true, installFresh s l)
      else if lock0.type = LockType.READ_LOCK then
        .ok (true, setLock s { lock0 with read_locked_by := lock0.read_locked_by ++ [txnId] })
      else
        match lock0.write_locked_by with
        | none => .error .crash
        | some lockingId =>
          match getTxn s lockingId with
          | none => .error .crash
          | some lockingTxn =>
            if lockingTxn.timestamp < txnTs then
              .ok (false, setLock s { lock0 with
                    waiting_transactions := lock0.waiting_transactions ++ [txnId] })
            else
              match abort fuel s lockingId with
              | .error e => .error e
              | .ok p =>
                let snap := refreshLock p.2 lock0
                let snap2 := { snap with
                               write_locked_by := none,
                               type := LockType.READ_LOCK,
                               read_locked_by := snap.read_locked_by ++ [txnId] }
                .ok (true, writeLockBack p.2 snap2)
termination_by structural fuel _ _ _ _ => fuel

/-- The `for locking_txn in lock.read_locked_by` scan of
`LockManager.get_write_lock` (lines 159-167): CPython iterates by index over
the live list, so a wound that removes the current holder shifts the next one
under the index. -/
def woundLoop : Nat → EngineState → Lock → Nat → Nat → Nat → Except Err (Lock × EngineState)
  | 0, _, _, _, _, _ => .error .fuelOut
  | fuel + 1, s, snap, i, txnId, txnTs =>
    match snap.read_locked_by[i]? with
    | none => .ok (snap, s)
    | some lockingId =>
      if lockingId = txnId then
        woundLoop fuel s snap (i + 1) txnId txnTs
      else
        match getTxn s lockingId with
        | none => .error .crash
        | some lockingTxn =>
          if txnTs < lockingTxn.timestamp then
            match abort fuel s lockingId with
            | .error e => .error e
            | .ok p => woundLoop fuel p.2 (refreshLock p.2 snap) (i + 1) txnId txnTs
          else
            .ok (snap, s)
termination_by structural fuel _ _ _ _ _ => fuel

/-- `LockManager.get_write_lock` (lines 133-203).  Note line 200 of the source:
the wound-on-WRITE branch reinstates `write_locked_by` but never restores
`lock.type`, which the nested abort has set to UNLOCKED. -/
def get_write_lock : Nat → EngineState → String → Nat → Nat → Except Err (Bool × EngineState)
  | 0, _, _, _, _ => .error .fuelOut
  | fuel + 1, s, item, txnId, txnTs =>
    match getLock s item with
    | none =>
      let l : Lock := { serial := s.next_serial, item := item,
                        type := LockType.WRITE_LOCK, read_locked_by := [],
                        waiting_transactions := [], write_locked_by := some txnId }
      .ok (true, installFresh s l)
    | some lock0 =>
      if lock0.type = LockType.UNLOCKED then
        let l : Lock := { serial := s.next_serial, item := item,
                          type := LockType.WRITE_LOCK, read_locked_by := [],
                          waiting_transactions := [], write_locked_by := some txnId }
        .ok (true, installFresh s l)
      else if lock0.type = LockType.READ_LOCK then
        match woundLoop fuel s lock0 0 txnId txnTs with
        | .error e => .error e
        | .ok q =>
          let snap := q.1
          if snap.read_locked_by = [] then
            .ok (true, writeLockBack q.2 { snap with
                  write_locked_by := some txnId, type := LockType.WRITE_LOCK })
          else if snap.read_locked_by = [txnId] then
            .ok (true, writeLockBack q.2 { snap with
                  write_locked_by := some txnId, read_locked_by := [],
                  type := LockType.WRITE_LOCK })
          else
            .ok (false, writeLockBack q.2 { snap with
                  waiting_transactions := snap.waiting_transactions ++ [txnId] })
      else
        match lock0.write_locked_by with
        | none => .error .crash
        | some lockingId =>
          match getTxn s lockingId with
          | none => .error .crash
          | some lockingTxn =>
            if lockingTxn.timestamp < txnTs then
              .ok (false, setLock s { lock0 with
                    waiting_transactions := lock0.waiting_transactions ++ [txnId] })
            else
              match abort fuel s lockingId with
              | .error e => .error e
              | .ok p =>
                let snap := refreshLock p.2 lock0
                .ok (true, writeLockBack p.2 { snap with write_locked_by := some txnId })
termination_by structural fuel _ _ _ _ => fuel

/-- `TransactionManager.read_item` (lines 254-265). -/
def read_item : Nat → EngineState → String → Nat → Except Err (Bool × EngineState)
  | 0, _, _, _ => .error .fuelOut
  | fuel + 1, s, item, txnId =>
    match getTxn s txnId with
    | none => .error .crash
    | some txn =>
      if txn.state ≠ TransactionState.ACTIVE then
        .ok (false, s)
      else
        match get_read_lock fuel s item txnId txn.timestamp with
        | .error e => .error e
        | .ok g =>
          match getTxn g.2 txnId with
          | none => .error .crash
          | some txn1 =>
            if g.1 then
              .ok (true, setTxn g.2 { txn1 with
                    locked_resources := addResource txn1.locked_resources item })
            else
              .ok (false, setTxn g.2 { txn1 with
                    waiting_ops := txn1.waiting_ops ++ [('r', item)],
                    state := TransactionState.WAITING })
termination_by structural fuel _ _ _ => fuel

/-- `TransactionManager.write_item` (lines 267-277). -/
def write_item : Nat → EngineState → String → Nat → Except Err (Bool × EngineState)
  | 0, _, _, _ => .error .fuelOut
  | fuel + 1, s, item, txnId =>
    match getTxn s txnId with
    | none => .error .crash
    | some txn =>
      if txn.state ≠ TransactionState.ACTIVE then
        .ok (false, s)
      else
        match get_write_lock fuel s item txnId txn.timestamp with
        | .error e => .error e
        | .ok g =>
          match getTxn g.2 txnId with
          | none => .error .crash
          | some txn1 =>
            if g.1 then
              .ok (true, setTxn g.2 { txn1 with
                    locked_resources := addResource txn1.locked_resources item })
            else
              .ok (false, setTxn g.2 { txn1 with
                    waiting_ops := txn1.waiting_ops ++ [('w', item)],
                    state := TransactionState.WAITING })
termination_by structural fuel _ _ _ => fuel

/-- The waiter-restart loop of `commit` (lines 293-298) and `abort` (lines
316-320): for each listed resource, fetch its lock by unguarded indexing
(`lock_manager.lock_table[resource]`, KeyError if absent), and if its waiter
queue is non-empty pop the head and restart it. -/
def restartWaiters : Nat → EngineState → List String → Except Err EngineState
  | 0, _, _ => .error .fuelOut
  | _ + 1, s, [] => .ok s
  | fuel + 1, s, resource :: rest =>
    match getLock s resource with
    | none => .error .crash
    | some lock =>
      match lock.waiting_transactions with
      | [] => restartWaiters fuel s rest
      | wId :: ws =>
        let s1 := setLock s { lock with waiting_transactions := ws }
        match restart fuel s1 wId with
        | .error e => .error e
        | .ok p => restartWaiters fuel p.2 rest
termination_by structural fuel _ _ => fuel

/-- `TransactionManager.commit` (lines 279-301).  Note that the source collects
`unlocked_resources` but runs its restart loop over all of
`txn.locked_resources`. -/
def commit : Nat → EngineState → Nat → Except Err (Bool × EngineState)
  | 0, _, _ => .error .fuelOut
  | fuel + 1, s, txnId =>
    match getTxn s txnId with
    | none => .error .crash
    | some txn =>
      if txn.state ≠ TransactionState.ACTIVE then
        .ok (false, setTxn s { txn with waiting_ops := txn.waiting_ops ++ [('c', "")] })
      else
        let u := unlockResources s txn.locked_resources txnId
        match getTxn u.2 txnId with
        | none => .error .crash
        | some txn1 =>
          let s2 := setTxn u.2 { txn1 with state := TransactionState.COMMITTED }
          match restartWaiters fuel s2 txn.locked_resources with
          | .error e => .error e
          | .ok s3 =>
            match getTxn s3 txnId with
            | none => .error .crash
            | some txn3 =>
              .ok (true, setTxn s3 { txn3 with locked_resources := [] })
termination_by structural fuel _ _ => fuel

/-- `TransactionManager.abort` (lines 303-322). -/
def abort : Nat → EngineState → Nat → Except Err (Bool × EngineState)
  | 0, _, _ => .error .fuelOut
  | fuel + 1, s, txnId =>
    match getTxn s txnId with
    | none => .error .crash
    | some txn =>
      if txn.state ≠ TransactionState.ACTIVE ∧ txn.state ≠ TransactionState.WAITING then
        .ok (false, s)
      else
        let u := unlockResources s txn.locked_resources txnId
        match getTxn u.2 txnId with
        | none => .error .crash
        | some txn1 =>
          let s2 := setTxn u.2 { txn1 with
                                 state := TransactionState.ABORTED,
                                 locked_resources := [], waiting_ops := [] }
          match restartWaiters fuel s2 u.1 with
          | .error e => .error e
          | .ok s3 => .ok (true, s3)
termination_by structural fuel _ _ => fuel

/-- `TransactionManager.restart` (lines 324-330 head). -/
def restart : Nat → EngineState → Nat → Except Err (Bool × EngineState)
  | 0, _, _ => .error .fuelOut
  | fuel + 1, s, txnId =>
    match getTxn s txnId with
    | none => .error .crash
    | some txn =>
      if txn.state ≠ TransactionState.WAITING then
        .ok (false, s)
      else
        restartLoop fuel (setTxn s { txn with state := TransactionState.ACTIVE }) txnId
termination_by structural fuel _ _ => fuel

/-- The replay loop of `restart` (lines 332-346): while ACTIVE with pending
ops, pop the head op, dispatch it, and if the transaction re-entered WAITING
push the op back to the front and stop. -/
def restartLoop : Nat → EngineState → Nat → Except Err (Bool × EngineState)
  | 0, _, _ => .error .fuelOut
  | fuel + 1, s, txnId =>
    match getTxn s txnId with
    | none => .error .crash
    | some txn =>
      if txn.state = TransactionState.ACTIVE ∧ txn.waiting_ops ≠ [] then
        match txn.waiting_ops with
        | [] => .ok (true, s)
        | (op, item) :: rest =>
          let s1 := setTxn s { txn with waiting_ops := rest }
          let act : Except Err (Bool × EngineState) :=
            if op = 'r' then read_item fuel s1 item txnId
            else if op = 'w' then write_item fuel s1 item txnId
            else if op = 'c' then commit fuel s1 txnId
            else .ok (true, s1)
          match act with
          | .error e => .error e
          | .ok p =>
            match getTxn p.2 txnId with
            | none => .error .crash
            | some txn2 =>
              if txn2.state = TransactionState.WAITING then
                .ok (false, setTxn p.2 { txn2 with waiting_ops := (op, item) :: txn2.waiting_ops })
              else
                restartLoop fuel p.2 txnId
      else
        .ok (true, s)
termination_by structural fuel _ _ => fuel

end

/-- `int(c)` on the single character `operation[1]`: a decimal digit or a
ValueError. -/
def charDigit (c : Char) : Except Err Nat :=
  if '0' ≤ c ∧ c ≤ '9' then .ok (c.toNat - '0'.toNat) else .error .crash

/-- `execute_operation` (lines 349-369): character-indexed parsing
(`operation[0]`, `int(operation[1])`, and `operation[3]` for r/w), then
dispatch; the transaction lookups `db_engine.transaction_table[id]` are
unguarded (KeyError on an id that was never begun). -/
def execute_operation (fuel : Nat) (s : EngineState) (operation : List Char) :
    Except Err EngineState :=
  match operation[0]? with
  | none => .error .crash
  | some op =>
    match operation[1]? with
    | none => .error .crash
    | some c1 =>
      match charDigit c1 with
      | .error e => .error e
      | .ok id =>
        if op = 'r' ∨ op = 'w' then
          match operation[3]? with
          | none => .error .crash
          | some itemChar =>
            let item := String.mk [itemChar]
            match getTxn s id with
            | none => .error .crash
            | some _ =>
              if op = 'r' then
                match read_item fuel s item id with
                | .error e => .error e
                | .ok p => .ok p.2
              else
                match write_item fuel s item id with
                | .error e => .error e
                | .ok p => .ok p.2
        else if op = 'b' then
          .ok (initiate_transaction s id).2
        else if op = 'e' then
          match getTxn s id with
          | none => .error .crash
          | some _ =>
            match commit fuel s id with
            | .error e => .error e
            | .ok p => .ok p.2
        else
          .ok s

/-- The per-schedule driver loop of `main` (lines 388-390): run each non-blank
line through `execute_operation`. -/
def runOps : Nat → EngineState → List (List Char) → Except Err EngineState
  | _, s, [] => .ok s
  | fuel, s, op :: rest =>
    match op with
    | [] => runOps fuel s rest
    | _ :: _ =>
      match execute_operation fuel s op with
      | .error e => .error e
      | .ok s1 => runOps fuel s1 rest

/-- The state at the start of a schedule: both tables empty, the process-wide
timestamp counter at an arbitrary value `ts0` (it is never reset between
schedules), no lock objects allocated yet. -/
def initState (ts0 : Nat) : EngineState :=
  { transaction_table := [], lock_table := [], ts_counter := ts0, next_serial := 0 }

/-- A state is reachable when some schedule of operations, run with enough
fuel from the start of a schedule, produces it. -/
def Reachable (s : EngineState) : Prop :=
  ∃ ts0 fuel ops, runOps fuel (initState ts0) ops = .ok s

/-! ### Concrete schedules used to settle the claims -/

/-- Encode schedule lines the way the driver feeds them to
`execute_operation`: raw character lists. -/
def mkOps (l : List String) : List (List Char) := l.map String.toList

/-- Project the state out of a successful run (default for the error case,
which the concrete runs below never hit). -/
def stateOf (r : Except Err EngineState) : EngineState :=
  match r with
  | .ok s => s
  | .error _ => initState 0

/-- Project the state out of a successful lock-manager call. -/
def stateOf2 (r : Except Err (Bool × EngineState)) : EngineState :=
  match r with
  | .ok p => p.2
  | .error _ => initState 0

def defaultLock : Lock :=
  { serial := 0, item := "", type := LockType.UNLOCKED, read_locked_by := [],
    waiting_transactions := [], write_locked_by := none }

def defaultTxn : Txn :=
  { id := 0, timestamp := 0, state := TransactionState.ACTIVE,
    locked_resources := [], waiting_ops := [] }

/-- C1 counterexample schedule: T1 and T3 read-lock x, then T2 requests a
write; the holder scan stops at T1 (older) and T2 is enqueued while the
younger T3 still holds the lock. -/
def opsC1 : List (List Char) := mkOps ["b1", "b2", "b3", "r1 x", "r3 x", "w2 x"]

def sC1 : EngineState := stateOf (runOps 30 (initState 0) opsC1)

/-- State with a write lock on x held by T1 and a fresh T2 about to request
it; used to instantiate the amended C1 statement. -/
def sB : EngineState := stateOf (runOps 30 (initState 0) (mkOps ["b1", "b2", "w1 x"]))

def lockB : Lock := (getLock sB "x").getD defaultLock

def txnB : Txn := (getTxn sB 1).getD defaultTxn

def sBafter : EngineState := stateOf2 (get_read_lock 10 sB "x" 2 2)

/-- C2 failing schedule: T1 wounds the write holder T2 (the lock is left with
`type = UNLOCKED` by line 200), then T3's read request replaces the entry,
stranding T1. -/
def opsC2 : List (List Char) := mkOps ["b1", "b2", "w2 x", "w1 x", "b3", "r3 x"]

def sC2 : EngineState := stateOf (runOps 30 (initState 0) opsC2)

/-- C3 failing schedule: both read holders T2, T3 are younger than the write
requester T1; wounding T2 removes it from the list being iterated, so T3 is
skipped and T1 waits. -/
def opsC3 : List (List Char) := mkOps ["b1", "b2", "b3", "r2 x", "r3 x", "w1 x"]

def sC3 : EngineState := stateOf (runOps 30 (initState 0) opsC3)

/-- C4 failing schedule: x stays READ-locked by T2 after T1 commits, yet
commit restarts the head waiter T3, which re-enqueues at the tail behind T4. -/
def opsC4pre : List (List Char) :=
  mkOps ["b1", "b2", "b3", "b4", "r1 x", "r2 x", "w3 x", "w4 x"]

def opsC4 : List (List Char) := opsC4pre ++ [String.toList "e1"]

def sC4pre : EngineState := stateOf (runOps 30 (initState 0) opsC4pre)

def sC4 : EngineState := stateOf (runOps 30 (initState 0) opsC4)

/-- C5 failing schedule: T1 holds the write lock on x and writes x again; the
wound-on-WRITE branch has no self-check, so T1 wounds itself. -/
def opsC5pre : List (List Char) := mkOps ["b1", "w1 x"]

def opsC5 : List (List Char) := opsC5pre ++ [String.toList "w1 x"]

def sC5pre : EngineState := stateOf (runOps 30 (initState 0) opsC5pre)

def sC5 : EngineState := stateOf (runOps 30 (initState 0) opsC5)

/-- C6 failing schedule: T1 reads x twice; the second read appends a duplicate
holder entry. -/
def opsC6pre : List (List Char) := mkOps ["b1", "r1 x"]

def sC6pre : EngineState := stateOf (runOps 30 (initState 0) opsC6pre)

def sC6 : EngineState := stateOf (execute_operation 30 sC6pre (String.toList "r1 x"))

/-- C7 failing schedule: T3 read-locks y, blocks on x, and is then wounded by
T2's write on y; the abort leaves the dead T3 sitting in x's waiter queue. -/
def opsC7 : List (List Char) :=
  mkOps ["b1", "b2", "b3", "w1 x", "r3 y", "w3 x", "w2 y"]

def sC7 : EngineState := stateOf (runOps 30 (initState 0) opsC7)

/-- C9 scenario (spec scenario 5): T2 blocks on x, its commit is deferred as a
marker, and both fire when T1 commits. -/
def opsC9pre : List (List Char) := mkOps ["b1", "b2", "w1 x", "w2 x"]

def opsC9mid : List (List Char) := opsC9pre ++ [String.toList "e2"]

def opsC9 : List (List Char) := opsC9mid ++ [String.toList "e1"]

def sC9pre : EngineState := stateOf (runOps 30 (initState 0) opsC9pre)

def sC9mid : EngineState := stateOf (runOps 30 (initState 0) opsC9mid)

def sC9 : EngineState := stateOf (runOps 30 (initState 0) opsC9)

def txnC9pre : Txn := (getTxn sC9pre 2).getD defaultTxn

/-- C10 witness schedule: a couple of grants, a wound and a wait, leaving two
transactions holding resources. -/
def opsC10 : List (List Char) := mkOps ["b1", "r1 x", "b2", "w2 y", "w1 y"]

def sC10 : EngineState := stateOf (runOps 30 (initState 0) opsC10)

def txnC10 : Txn := (getTxn sC10 1).getD defaultTxn

/-- The lock table only ever grows (or replaces entries in place) during a
schedule: every present key stays present. -/
def lockMono (s s1 : EngineState) : Prop :=
  ∀ item, (getLock s item).isSome = true → (getLock s1 item).isSome = true

/-- The C10 invariant: every item in any registered transaction's
locked-resources set has an entry in the lock table, so the unguarded
`lock_table[resource]` lookups in `commit` and `abort` find one. -/
def LocksPresent (s : EngineState) : Prop :=
  ∀ id t, getTxn s id = some t → ∀ item, item ∈ t.locked_resources →
    (getLock s item).isSome = true

/-- Preservation: the lock-table domain grows and the invariant carries over. -/
def Pres (s s1 : EngineState) : Prop :=
  lockMono s s1 ∧ (LocksPresent s → LocksPresent s1)

/-! ### Claim theorems -/

set_option maxHeartbeats 2000000 in
/-- Claim C1, counterexample.  The claim says that whenever `T_a` sits in the
waiter queue of an item, every current holder `T_b` of that item's lock
satisfies `T_a.timestamp > T_b.timestamp`.  In the reachable state `sC1`
(schedule `b1; b2; b3; r1 x; r3 x; w2 x`), T2 sits in x's waiter queue while
T3 holds a read lock on x, and `T2.timestamp < T3.timestamp`: the waiter is
strictly older than a holder, falsifying the claim (the holder scan stopped at
the older holder T1 before reaching T3). -/
theorem c1_counterexample :
    Reachable sC1 ∧
    ∃ lock t2 t3, getLock sC1 "x" = some lock ∧
      lock.waiting_transactions = [2] ∧ lock.read_locked_by = [1, 3] ∧
      getTxn sC1 2 = some t2 ∧ getTxn sC1 3 = some t3 ∧
      t2.timestamp < t3.timestamp :=
  ⟨⟨0, 30, opsC1, rfl⟩, _, _, _, rfl, rfl, rfl, rfl, rfl, by decide⟩

set_option maxHeartbeats 2000000 in
/-- Claim C2 (code bug).  The claimed invariant — every item in a
transaction's held-resources set has that transaction among the holders of its
lock-table entry — fails in the reachable state `sC2` (schedule
`b1; b2; w2 x; w1 x; b3; r3 x`): T1 is ACTIVE with x among its locked
resources, yet x's lock lists T1 neither as a read holder nor as the write
holder.  Cause: the wound-on-WRITE branch of `get_write_lock` (src line 200)
reinstates `write_locked_by` but not `lock.type`, leaving the entry
UNLOCKED-typed, so T3's later read request replaced the entry. -/
theorem c2_code_bug :
    Reachable sC2 ∧
    ∃ t1 lock, getTxn sC2 1 = some t1 ∧ t1.state = TransactionState.ACTIVE ∧
      "x" ∈ t1.locked_resources ∧ getLock sC2 "x" = some lock ∧
      (1 : Nat) ∉ lock.read_locked_by ∧ lock.write_locked_by ≠ some 1 :=
  ⟨⟨0, 30, opsC2, rfl⟩, _, _, rfl, rfl, by decide, rfl, by decide, by decide⟩

set_option maxHeartbeats 2000000 in
/-- Claim C3 (code bug).  The claim says that when every read holder other
than the requester is younger, all of them are wounded and the write lock is
granted.  In the reachable state `sC3` (schedule
`b1; b2; b3; r2 x; r3 x; w1 x`) both holders T2 and T3 are younger than the
requester T1, yet only T2 is wounded, T3 keeps its read lock, and T1 is
enqueued as a waiter: wounding T2 removes it from the list while the `for`
loop iterates it by index, so T3 is skipped. -/
theorem c3_code_bug :
    Reachable sC3 ∧
    ∃ t1 t2 t3 lock, getTxn sC3 1 = some t1 ∧ getTxn sC3 2 = some t2 ∧
      getTxn sC3 3 = some t3 ∧ getLock sC3 "x" = some lock ∧
      t1.timestamp < t2.timestamp ∧ t1.timestamp < t3.timestamp ∧
      t2.state = TransactionState.ABORTED ∧
      t3.state = TransactionState.ACTIVE ∧ lock.read_locked_by = [3] ∧
      t1.state = TransactionState.WAITING ∧ lock.waiting_transactions = [1] :=
  ⟨⟨0, 30, opsC3, rfl⟩, _, _, _, _, rfl, rfl, rfl, rfl, by decide, by decide,
   rfl, rfl, rfl, rfl, rfl⟩

set_option maxHeartbeats 2000000 in
/-- Claim C4 (code bug).  The claim says no waiter is restarted for an item
whose lock did not become UNLOCKED.  In state `sC4pre` item x is READ-locked
by T1 and T2 with waiter queue `[T3, T4]`; running `e1` releases only T1's
read share, so x never becomes UNLOCKED — yet the head waiter T3 is popped and
restarted (commit's restart loop runs over all of `txn.locked_resources`,
ignoring the `unlocked_resources` list it just computed), and T3 re-enqueues
at the tail: the queue ends as `[T4, T3]` instead of staying `[T3, T4]`. -/
theorem c4_code_bug :
    Reachable sC4pre ∧
    (∃ lock, getLock sC4pre "x" = some lock ∧ lock.type = LockType.READ_LOCK ∧
       lock.read_locked_by = [1, 2] ∧ lock.waiting_transactions = [3, 4]) ∧
    runOps 30 sC4pre (mkOps ["e1"]) = .ok sC4 ∧
    (∃ lock, getLock sC4 "x" = some lock ∧ lock.type = LockType.READ_LOCK ∧
       lock.read_locked_by = [2] ∧ lock.waiting_transactions = [4, 3]) :=
  ⟨⟨0, 30, opsC4pre, rfl⟩, ⟨_, rfl, rfl, rfl, rfl⟩, rfl, ⟨_, rfl, rfl, rfl, rfl⟩⟩

set_option maxHeartbeats 2000000 in
/-- Claim C5 (code bug).  The claim (self-write law) says a transaction
holding the write lock on x that requests read or write on x again is granted
trivially, with no transaction aborted.  In state `sC5pre` T1 is ACTIVE and
write-holds x; issuing `w1 x` again makes T1 wound *itself* (the
wound-on-WRITE branch of `get_write_lock` compares timestamps without the
self-check the READ branch has): T1 ends ABORTED and the lock UNLOCKED. -/
theorem c5_code_bug :
    Reachable sC5pre ∧
    (∃ t1 lock, getTxn sC5pre 1 = some t1 ∧ t1.state = TransactionState.ACTIVE ∧
       getLock sC5pre "x" = some lock ∧ lock.type = LockType.WRITE_LOCK ∧
       lock.write_locked_by = some 1) ∧
    execute_operation 30 sC5pre (String.toList "w1 x") = .ok sC5 ∧
    (∃ t1 lock, getTxn sC5 1 = some t1 ∧ t1.state = TransactionState.ABORTED ∧
       getLock sC5 "x" = some lock ∧ lock.type = LockType.UNLOCKED) :=
  ⟨⟨0, 30, opsC5pre, rfl⟩, ⟨_, _, rfl, rfl, rfl, rfl, rfl⟩, rfl,
   ⟨_, _, rfl, rfl, rfl, rfl⟩⟩

set_option maxHeartbeats 2000000 in
/-- Claim C6 (code bug).  The claim (idempotent acquisition) says a read by a
transaction already holding the read lock leaves the state unchanged and adds
no duplicate holder entry.  In state `sC6pre` T1 holds the read lock on x with
holder list `[1]`; replaying `r1 x` changes the state: `get_read_lock` appends
unconditionally (src line 111), leaving the holder list `[1, 1]`. -/
theorem c6_code_bug :
    Reachable sC6pre ∧
    (∃ t1 lock, getTxn sC6pre 1 = some t1 ∧ t1.state = TransactionState.ACTIVE ∧
       getLock sC6pre "x" = some lock ∧ lock.read_locked_by = [1]) ∧
    execute_operation 30 sC6pre (String.toList "r1 x") = .ok sC6 ∧
    sC6 ≠ sC6pre ∧
    (∃ lock, getLock sC6 "x" = some lock ∧ lock.read_locked_by = [1, 1]) :=
  ⟨⟨0, 30, opsC6pre, rfl⟩, ⟨_, _, rfl, rfl, rfl, rfl⟩, rfl, by decide,
   ⟨_, rfl, rfl⟩⟩

set_option maxHeartbeats 2000000 in
/-- Claim C7 (code bug).  The claim says terminal (ABORTED/COMMITTED)
transactions appear in no waiter queue, `abort` removing the transaction from
any queue it sits in.  In the reachable state `sC7` (schedule
`b1; b2; b3; w1 x; r3 y; w3 x; w2 y`), T3 blocked on x and was then wounded by
T2's write on y: T3 is ABORTED yet still sits in x's waiter queue — `abort`
(src lines 303-322) never scans waiter queues. -/
theorem c7_code_bug :
    Reachable sC7 ∧
    ∃ t3 lock, getTxn sC7 3 = some t3 ∧ t3.state = TransactionState.ABORTED ∧
      getLock sC7 "x" = some lock ∧ lock.waiting_transactions = [3] :=
  ⟨⟨0, 30, opsC7, rfl⟩, _, _, rfl, rfl, rfl, rfl⟩

set_option maxHeartbeats 2000000 in
/-- Claim C8, counterexample.  The claim says a read/write/end naming an id
that was never begun is ignored with no crash.  From the initial state, where
id 1 is unknown, `execute_operation` on `r1 x` raises (the unguarded
`transaction_table[id]` lookup): the run ends in `Err.crash`, not in an
unchanged state. -/
theorem c8_counterexample :
    getTxn (initState 0) 1 = none ∧
    execute_operation 30 (initState 0) (String.toList "r1 x") = .error Err.crash :=
  ⟨rfl, rfl⟩

/-- Claim C1, amended.  What does hold of the code: a transaction enqueued as
a waiter while the item's lock is WRITE-held is strictly younger than the
write holder (for both a read and a write request).  The unrestricted claim —
every waiter younger than every holder of the item, hence an acyclic wait
relation — is false (`c1_counterexample`): a write request against a READ-held
item can enqueue the requester while strictly younger read holders remain. -/
theorem c1_amended (fuel : Nat) (s : EngineState) (item : String)
    (txnId txnTs : Nat) (lock : Lock) (hId : Nat) (h : Txn) (s' : EngineState)
    (hl : getLock s item = some lock) (ht : lock.type = LockType.WRITE_LOCK)
    (hw : lock.write_locked_by = some hId) (hh : getTxn s hId = some h)
    (hrun : get_read_lock fuel s item txnId txnTs = .ok (false, s') ∨
            get_write_lock fuel s item txnId txnTs = .ok (false, s')) :
    h.timestamp < txnTs := by
  cases fuel with
  | zero =>
    rcases hrun with h1 | h1 <;> simp [get_read_lock, get_write_lock] at h1
  | succ f =>
    by_cases hlt : h.timestamp < txnTs
    · exact hlt
    · exfalso
      rcases hrun with h1 | h1
      · rw [get_read_lock] at h1
        rw [hl] at h1
        simp only [ht, hw, hh] at h1
        simp only [reduceCtorEq, if_false, reduceIte] at h1
        rw [if_neg hlt] at h1
        cases habort : abort f s hId with
        | error e => rw [habort] at h1; simp at h1
        | ok p => rw [habort] at h1; simp at h1
      · rw [get_write_lock] at h1
        rw [hl] at h1
        simp only [ht, hw, hh] at h1
        simp only [reduceCtorEq, if_false, reduceIte] at h1
        rw [if_neg hlt] at h1
        cases habort : abort f s hId with
        | error e => rw [habort] at h1; simp at h1
        | ok p => rw [habort] at h1; simp at h1

set_option maxHeartbeats 400000 in
/-- Witness for `c1_amended`: in the reachable state `sB`, T1 (timestamp 1)
write-holds x and T2's (timestamp 2) read request is refused with T2
enqueued; the theorem yields `T1.timestamp < 2`. -/
theorem c1_amended_witness : txnB.timestamp < 2 :=
  c1_amended 10 sB "x" 2 2 lockB 1 txnB sBafter rfl rfl rfl rfl (Or.inl rfl)

/-- Claim C8, amended.  What does hold of the code: a read, write, or end
operation naming an id that was never begun raises an unhandled KeyError when
`execute_operation` indexes `transaction_table[id]` — the operation is not
silently ignored, the run crashes and produces no successor state. -/
theorem c8_amended (fuel : Nat) (s : EngineState) (d x : Char) (id : Nat)
    (hd : charDigit d = .ok id) (habs : getTxn s id = none) :
    execute_operation fuel s ['r', d, ' ', x] = .error Err.crash ∧
    execute_operation fuel s ['w', d, ' ', x] = .error Err.crash ∧
    execute_operation fuel s ['e', d] = .error Err.crash := by
  unfold execute_operation
  simp [hd, habs]

/-- Witness for `c8_amended`: the three unknown-id operations on the empty
initial state all crash. -/
theorem c8_amended_witness :
    execute_operation 7 (initState 0) ['r', '1', ' ', 'x'] = .error Err.crash ∧
    execute_operation 7 (initState 0) ['w', '1', ' ', 'x'] = .error Err.crash ∧
    execute_operation 7 (initState 0) ['e', '1'] = .error Err.crash :=
  c8_amended 7 (initState 0) '1' 'x' 1 rfl rfl

/-- Claim C9, confirmed.  First conjunct: a `commit` issued for a transaction
that is not ACTIVE does not commit it; it returns False having appended a
`('c', "")` marker at the tail of the transaction's suspended-operation queue
and changed nothing else.  Remaining conjuncts (spec scenario 5,
`b1; b2; w1 x; w2 x; e2; e1`): after `e2` the blocked T2 carries
`[('w',"x"), ('c',"")]` and is still WAITING; after `e1` the restart replays
the write and then the marker, leaving T2 COMMITTED. -/
theorem c9_confirmed (fuel : Nat) (s : EngineState) (txnId : Nat) (txn : Txn)
    (h : getTxn s txnId = some txn) (hst : txn.state ≠ TransactionState.ACTIVE) :
    commit (fuel + 1) s txnId =
      .ok (false, setTxn s { txn with waiting_ops := txn.waiting_ops ++ [('c', "")] }) ∧
    (∃ t2, getTxn sC9mid 2 = some t2 ∧ t2.state = TransactionState.WAITING ∧
       t2.waiting_ops = [('w', "x"), ('c', "")]) ∧
    (∃ t2, getTxn sC9 2 = some t2 ∧ t2.state = TransactionState.COMMITTED) := by
  refine ⟨?_, ⟨_, rfl, rfl, rfl⟩, ⟨_, rfl, rfl⟩⟩
  unfold commit
  simp [h, hst]

set_option maxHeartbeats 2000000 in
/-- Witness for `c9_confirmed`: instantiated at the reachable state `sC9pre`
where T2 is WAITING on x. -/
theorem c9_confirmed_witness :
    (commit 11 sC9pre 2 =
      .ok (false, setTxn sC9pre
        { txnC9pre with waiting_ops := txnC9pre.waiting_ops ++ [('c', "")] })) ∧
    (∃ t2, getTxn sC9mid 2 = some t2 ∧ t2.state = TransactionState.WAITING ∧
       t2.waiting_ops = [('w', "x"), ('c', "")]) ∧
    (∃ t2, getTxn sC9 2 = some t2 ∧ t2.state = TransactionState.COMMITTED) :=
  c9_confirmed 10 sC9pre 2 txnC9pre rfl (by decide)

/-! ### Invariant machinery for claim C10 -/

theorem lookupA_updateA {a b : Type} [DecidableEq a] (l : List (a × b)) (k : a) (v : b)
    (k1 : a) : lookupA (updateA l k v) k1 = if k = k1 then some v else lookupA l k1 := by
  induction l with
  | nil => simp [updateA, lookupA]
  | cons hd tl ih =>
    obtain ⟨a0, b0⟩ := hd
    by_cases hak : a0 = k
    · subst hak
      by_cases hk1 : a0 = k1 <;> simp [updateA, lookupA, hk1]
    · by_cases hk1 : a0 = k1
      · subst hk1
        simp [updateA, lookupA, hak, Ne.symm hak]
      · simp [updateA, lookupA, hak, hk1, ih]

theorem getTxn_setLock (s : EngineState) (l : Lock) (id : Nat) :
    getTxn (setLock s l) id = getTxn s id := rfl

theorem getLock_setTxn (s : EngineState) (t : Txn) (item : String) :
    getLock (setTxn s t) item = getLock s item := rfl

theorem getTxn_installFresh (s : EngineState) (l : Lock) (id : Nat) :
    getTxn (installFresh s l) id = getTxn s id := rfl

theorem getLock_setLock (s : EngineState) (l : Lock) (item : String) :
    getLock (setLock s l) item = if l.item = item then some l else getLock s item := by
  simp [getLock, setLock, lookupA_updateA]

theorem getLock_installFresh (s : EngineState) (l : Lock) (item : String) :
    getLock (installFresh s l) item = if l.item = item then some l else getLock s item := by
  simp [getLock, installFresh, lookupA_updateA]

theorem getTxn_setTxn (s : EngineState) (t : Txn) (id : Nat) :
    getTxn (setTxn s t) id = if t.id = id then some t else getTxn s id := by
  simp [getTxn, setTxn, lookupA_updateA]

theorem pres_refl (s : EngineState) : Pres s s :=
  ⟨fun _ h => h, id⟩

theorem pres_trans {a b c : EngineState} (h1 : Pres a b) (h2 : Pres b c) : Pres a c :=
  ⟨fun i h => h2.1 i (h1.1 i h), fun lp => h2.2 (h1.2 lp)⟩

theorem pres_setLock (s : EngineState) (l : Lock) : Pres s (setLock s l) := by
  constructor
  · intro item h
    rw [getLock_setLock]
    split
    · rfl
    · exact h
  · intro lp id t ht item hm
    have hws := lp id t ht item hm
    rw [getLock_setLock]
    split
    · rfl
    · exact hws

theorem pres_installFresh (s : EngineState) (l : Lock) : Pres s (installFresh s l) := by
  constructor
  · intro item h
    rw [getLock_installFresh]
    split
    · rfl
    · exact h
  · intro lp id t ht item hm
    have hws := lp id t ht item hm
    rw [getLock_installFresh]
    split
    · rfl
    · exact hws

theorem pres_writeLockBack (s : EngineState) (snap : Lock) :
    Pres s (writeLockBack s snap) := by
  unfold writeLockBack
  split
  · split
    · exact pres_setLock s snap
    · exact pres_refl s
  · exact pres_refl s

theorem pres_unlock_item (s : EngineState) (item : String) (txnId : Nat) :
    Pres s (unlock_item s item txnId).2 := by
  unfold unlock_item
  split
  · exact pres_refl s
  · exact pres_setLock s _

theorem unlock_item_txnTable (s : EngineState) (item : String) (txnId : Nat) :
    (unlock_item s item txnId).2.transaction_table = s.transaction_table := by
  unfold unlock_item
  split <;> rfl

theorem unlockResources_snd (s : EngineState) (r : String) (rest : List String)
    (txnId : Nat) :
    (unlockResources s (r :: rest) txnId).2 =
      (unlockResources (unlock_item s r txnId).2 rest txnId).2 := by
  rw [unlockResources]
  split <;> rfl

theorem pres_unlockResources (rs : List String) :
    forall (s : EngineState) (txnId : Nat), Pres s (unlockResources s rs txnId).2 := by
  induction rs with
  | nil => intro s txnId; exact pres_refl s
  | cons r rest ih =>
    intro s txnId
    rw [unlockResources_snd]
    exact pres_trans (pres_unlock_item s r txnId) (ih _ txnId)

theorem unlockResources_txnTable (rs : List String) :
    forall (s : EngineState) (txnId : Nat),
      (unlockResources s rs txnId).2.transaction_table = s.transaction_table := by
  induction rs with
  | nil => intro s txnId; rfl
  | cons r rest ih =>
    intro s txnId
    rw [unlockResources_snd, ih, unlock_item_txnTable]

theorem getTxn_unlockResources (rs : List String) (s : EngineState) (txnId id : Nat) :
    getTxn (unlockResources s rs txnId).2 id = getTxn s id := by
  unfold getTxn
  rw [unlockResources_txnTable]

theorem pres_setTxn (s : EngineState) (t : Txn)
    (hres : LocksPresent s -> forall item, item ∈ t.locked_resources ->
      (getLock s item).isSome = true) :
    Pres s (setTxn s t) := by
  constructor
  · intro item h
    rw [getLock_setTxn]
    exact h
  · intro lp id t1 ht1 item hm
    rw [getLock_setTxn]
    rw [getTxn_setTxn] at ht1
    by_cases hid : t.id = id
    · rw [if_pos hid] at ht1
      cases ht1
      exact hres lp item hm
    · rw [if_neg hid] at ht1
      exact lp id t1 ht1 item hm

theorem mem_addResource {l : List String} {a item : String}
    (h : a ∈ addResource l item) : a ∈ l ∨ a = item := by
  unfold addResource at h
  split at h
  · exact Or.inl h
  · simpa using h

theorem isSome_of_eq_some {s : EngineState} {item : String} {l : Lock}
    (h : getLock s item = some l) : (getLock s item).isSome = true := by
  rw [h]; rfl

theorem pres_initiate (s : EngineState) (id : Nat) :
    Pres s (initiate_transaction s id).2 := by
  unfold initiate_transaction
  split
  · exact pres_refl s
  · constructor
    · intro item h
      exact h
    · intro lp id1 t ht1 item hm
      unfold getTxn at ht1
      simp only at ht1
      rw [lookupA_updateA] at ht1
      by_cases hid : id = id1
      · rw [if_pos hid] at ht1
        cases ht1
        simp at hm
      · rw [if_neg hid] at ht1
        exact lp id1 t ht1 item hm

theorem grl_pres (f : Nat)
    (ihAb : ∀ s txnId p, abort f s txnId = .ok p → Pres s p.2) :
    ∀ s item txnId txnTs p, get_read_lock (f + 1) s item txnId txnTs = .ok p →
      Pres s p.2 ∧ (getLock p.2 item).isSome = true := by
  intro s item txnId txnTs p h
  rw [get_read_lock] at h
  split at h
  · -- getLock s item = none : fresh lock installed
    simp only [Except.ok.injEq] at h
    subst h
    refine ⟨pres_installFresh s _, ?_⟩
    rw [getLock_installFresh]
    simp
  · -- getLock s item = some lock0
    rename_i lock0 hlock
    split at h
    · -- UNLOCKED: fresh lock installed
      simp only [Except.ok.injEq] at h
      subst h
      refine ⟨pres_installFresh s _, ?_⟩
      rw [getLock_installFresh]
      simp
    · split at h
      · -- READ: holder appended
        simp only [Except.ok.injEq] at h
        subst h
        refine ⟨pres_setLock s _, ?_⟩
        rw [getLock_setLock]
        split
        · rfl
        · exact isSome_of_eq_some hlock
      · -- WRITE branch
        split at h
        · simp at h
        · rename_i lockingId hwlb
          split at h
          · simp at h
          · rename_i lockingTxn hlt
            split at h
            · -- holder older: wait, lock updated in place
              simp only [Except.ok.injEq] at h
              subst h
              refine ⟨pres_setLock s _, ?_⟩
              rw [getLock_setLock]
              split
              · rfl
              · exact isSome_of_eq_some hlock
            · -- wound path: abort then write back through the alias
              split at h
              · simp at h
              · rename_i p1 habort
                simp only [Except.ok.injEq] at h
                subst h
                refine ⟨pres_trans (ihAb s lockingId p1 habort) (pres_writeLockBack p1.2 _), ?_⟩
                exact (pres_trans (ihAb s lockingId p1 habort)
                  (pres_writeLockBack p1.2 _)).1 item (isSome_of_eq_some hlock)

theorem wl_pres (f : Nat)
    (ihAb : ∀ s txnId p, abort f s txnId = .ok p → Pres s p.2)
    (ihWl : ∀ s snap i txnId txnTs q, woundLoop f s snap i txnId txnTs = .ok q →
       Pres s q.2) :
    ∀ s snap i txnId txnTs q, woundLoop (f + 1) s snap i txnId txnTs = .ok q →
      Pres s q.2 := by
  intro s snap i txnId txnTs q h
  rw [woundLoop] at h
  split at h
  · simp only [Except.ok.injEq] at h
    subst h
    exact pres_refl s
  · rename_i lockingId hidx
    split at h
    · exact ihWl s snap (i + 1) txnId txnTs q h
    · split at h
      · simp at h
      · rename_i lockingTxn hlt
        split at h
        · split at h
          · simp at h
          · rename_i p1 habort
            exact pres_trans (ihAb s lockingId p1 habort)
              (ihWl p1.2 _ (i + 1) txnId txnTs q h)
        · simp only [Except.ok.injEq] at h
          subst h
          exact pres_refl s

theorem gwl_pres (f : Nat)
    (ihAb : ∀ s txnId p, abort f s txnId = .ok p → Pres s p.2)
    (ihWl : ∀ s snap i txnId txnTs q, woundLoop f s snap i txnId txnTs = .ok q →
       Pres s q.2) :
    ∀ s item txnId txnTs p, get_write_lock (f + 1) s item txnId txnTs = .ok p →
      Pres s p.2 ∧ (getLock p.2 item).isSome = true := by
  intro s item txnId txnTs p h
  rw [get_write_lock] at h
  split at h
  · simp only [Except.ok.injEq] at h
    subst h
    refine ⟨pres_installFresh s _, ?_⟩
    rw [getLock_installFresh]
    simp
  · rename_i lock0 hlock
    split at h
    · simp only [Except.ok.injEq] at h
      subst h
      refine ⟨pres_installFresh s _, ?_⟩
      rw [getLock_installFresh]
      simp
    · split at h
      · -- READ branch: woundLoop then grant / upgrade / wait
        split at h
        · simp at h
        · rename_i q1 hwl
          have hq := ihWl s lock0 0 txnId txnTs q1 hwl
          simp only [] at h
          split at h
          · simp only [Except.ok.injEq] at h
            subst h
            refine ⟨pres_trans hq (pres_writeLockBack q1.2 _), ?_⟩
            exact (pres_trans hq (pres_writeLockBack q1.2 _)).1 item
              (isSome_of_eq_some hlock)
          · split at h
            · simp only [Except.ok.injEq] at h
              subst h
              refine ⟨pres_trans hq (pres_writeLockBack q1.2 _), ?_⟩
              exact (pres_trans hq (pres_writeLockBack q1.2 _)).1 item
                (isSome_of_eq_some hlock)
            · simp only [Except.ok.injEq] at h
              subst h
              refine ⟨pres_trans hq (pres_writeLockBack q1.2 _), ?_⟩
              exact (pres_trans hq (pres_writeLockBack q1.2 _)).1 item
                (isSome_of_eq_some hlock)
      · -- WRITE branch
        split at h
        · simp at h
        · rename_i lockingId hwlb
          split at h
          · simp at h
          · rename_i lockingTxn hlt
            split at h
            · simp only [Except.ok.injEq] at h
              subst h
              refine ⟨pres_setLock s _, ?_⟩
              rw [getLock_setLock]
              split
              · rfl
              · exact isSome_of_eq_some hlock
            · split at h
              · simp at h
              · rename_i p1 habort
                simp only [Except.ok.injEq] at h
                subst h
                refine ⟨pres_trans (ihAb s lockingId p1 habort)
                  (pres_writeLockBack p1.2 _), ?_⟩
                exact (pres_trans (ihAb s lockingId p1 habort)
                  (pres_writeLockBack p1.2 _)).1 item (isSome_of_eq_some hlock)

theorem rd_pres (f : Nat)
    (ihGrl : ∀ s item txnId txnTs p, get_read_lock f s item txnId txnTs = .ok p →
       Pres s p.2 ∧ (getLock p.2 item).isSome = true) :
    ∀ s item txnId p, read_item (f + 1) s item txnId = .ok p → Pres s p.2 := by
  intro s item txnId p h
  rw [read_item] at h
  split at h
  · simp at h
  · rename_i txn htxn
    split at h
    · simp only [Except.ok.injEq] at h
      subst h
      exact pres_refl s
    · split at h
      · simp at h
      · rename_i g hg
        obtain ⟨hgPres, hgSome⟩ := ihGrl s item txnId txn.timestamp g hg
        split at h
        · simp at h
        · rename_i txn1 htxn1
          split at h
          · simp only [Except.ok.injEq] at h
            subst h
            refine pres_trans hgPres (pres_setTxn g.2 _ ?_)
            intro lp it hit
            rcases mem_addResource hit with hmem | heq
            · exact lp txnId txn1 htxn1 it hmem
            · subst heq
              exact hgSome
          · simp only [Except.ok.injEq] at h
            subst h
            refine pres_trans hgPres (pres_setTxn g.2 _ ?_)
            intro lp it hit
            exact lp txnId txn1 htxn1 it hit

theorem wr_pres (f : Nat)
    (ihGwl : ∀ s item txnId txnTs p, get_write_lock f s item txnId txnTs = .ok p →
       Pres s p.2 ∧ (getLock p.2 item).isSome = true) :
    ∀ s item txnId p, write_item (f + 1) s item txnId = .ok p → Pres s p.2 := by
  intro s item txnId p h
  rw [write_item] at h
  split at h
  · simp at h
  · rename_i txn htxn
    split at h
    · simp only [Except.ok.injEq] at h
      subst h
      exact pres_refl s
    · split at h
      · simp at h
      · rename_i g hg
        obtain ⟨hgPres, hgSome⟩ := ihGwl s item txnId txn.timestamp g hg
        split at h
        · simp at h
        · rename_i txn1 htxn1
          split at h
          · simp only [Except.ok.injEq] at h
            subst h
            refine pres_trans hgPres (pres_setTxn g.2 _ ?_)
            intro lp it hit
            rcases mem_addResource hit with hmem | heq
            · exact lp txnId txn1 htxn1 it hmem
            · subst heq
              exact hgSome
          · simp only [Except.ok.injEq] at h
            subst h
            refine pres_trans hgPres (pres_setTxn g.2 _ ?_)
            intro lp it hit
            exact lp txnId txn1 htxn1 it hit

theorem rw_pres (f : Nat)
    (ihRs : ∀ s txnId p, restart f s txnId = .ok p → Pres s p.2)
    (ihRw : ∀ s rs s1, restartWaiters f s rs = .ok s1 → Pres s s1) :
    ∀ s rs s1, restartWaiters (f + 1) s rs = .ok s1 → Pres s s1 := by
  intro s rs s1 h
  cases rs with
  | nil =>
    rw [restartWaiters] at h
    simp only [Except.ok.injEq] at h
    subst h
    exact pres_refl s
  | cons r rest =>
    rw [restartWaiters] at h
    split at h
    · simp at h
    · rename_i lock hlock
      split at h
      · exact ihRw s rest s1 h
      · rename_i wId ws hws
        simp only [] at h
        split at h
        · simp at h
        · rename_i p1 hrs
          exact pres_trans (pres_setLock s _)
            (pres_trans (ihRs _ wId p1 hrs) (ihRw p1.2 rest s1 h))

theorem cm_pres (f : Nat)
    (ihRw : ∀ s rs s1, restartWaiters f s rs = .ok s1 → Pres s s1) :
    ∀ s txnId p, commit (f + 1) s txnId = .ok p → Pres s p.2 := by
  intro s txnId p h
  rw [commit] at h
  split at h
  · simp at h
  · rename_i txn htxn
    split at h
    · simp only [Except.ok.injEq] at h
      subst h
      refine pres_setTxn s _ ?_
      intro lp it hit
      exact lp txnId txn htxn it hit
    · simp only [] at h
      split at h
      · simp at h
      · rename_i txn1 htxn1
        split at h
        · simp at h
        · rename_i s3 hrw
          split at h
          · simp at h
          · rename_i txn3 htxn3
            simp only [Except.ok.injEq] at h
            subst h
            have h1 := pres_unlockResources txn.locked_resources s txnId
            have h2 := pres_setTxn (unlockResources s txn.locked_resources txnId).2
              { txn1 with state := TransactionState.COMMITTED }
              (fun lp it hit => lp txnId txn1 htxn1 it hit)
            have h3 := ihRw _ txn.locked_resources s3 hrw
            have h4 := pres_setTxn s3 { txn3 with locked_resources := [] }
              (fun lp it hit => by simp at hit)
            exact pres_trans h1 (pres_trans h2 (pres_trans h3 h4))

theorem ab_pres (f : Nat)
    (ihRw : ∀ s rs s1, restartWaiters f s rs = .ok s1 → Pres s s1) :
    ∀ s txnId p, abort (f + 1) s txnId = .ok p → Pres s p.2 := by
  intro s txnId p h
  rw [abort] at h
  split at h
  · simp at h
  · rename_i txn htxn
    split at h
    · simp only [Except.ok.injEq] at h
      subst h
      exact pres_refl s
    · simp only [] at h
      split at h
      · simp at h
      · rename_i txn1 htxn1
        split at h
        · simp at h
        · rename_i s3 hrw
          simp only [Except.ok.injEq] at h
          subst h
          have h1 := pres_unlockResources txn.locked_resources s txnId
          have h2 := pres_setTxn (unlockResources s txn.locked_resources txnId).2
            { txn1 with
              state := TransactionState.ABORTED,
              locked_resources := [], waiting_ops := [] }
            (fun lp it hit => by simp at hit)
          have h3 := ihRw _ _ s3 hrw
          exact pres_trans h1 (pres_trans h2 h3)

theorem rs_pres (f : Nat)
    (ihRl : ∀ s txnId p, restartLoop f s txnId = .ok p → Pres s p.2) :
    ∀ s txnId p, restart (f + 1) s txnId = .ok p → Pres s p.2 := by
  intro s txnId p h
  rw [restart] at h
  split at h
  · simp at h
  · rename_i txn htxn
    split at h
    · simp only [Except.ok.injEq] at h
      subst h
      exact pres_refl s
    · exact pres_trans
        (pres_setTxn s { txn with state := TransactionState.ACTIVE }
          (fun lp it hit => lp txnId txn htxn it hit))
        (ihRl _ txnId p h)

theorem rl_pres (f : Nat)
    (ihRd : ∀ s item txnId p, read_item f s item txnId = .ok p → Pres s p.2)
    (ihWr : ∀ s item txnId p, write_item f s item txnId = .ok p → Pres s p.2)
    (ihCm : ∀ s txnId p, commit f s txnId = .ok p → Pres s p.2)
    (ihRl : ∀ s txnId p, restartLoop f s txnId = .ok p → Pres s p.2) :
    ∀ s txnId p, restartLoop (f + 1) s txnId = .ok p → Pres s p.2 := by
  intro s txnId p h
  rw [restartLoop] at h
  split at h
  · simp at h
  · rename_i txn htxn
    split at h
    · split at h
      · simp only [Except.ok.injEq] at h
        subst h
        exact pres_refl s
      · rename_i op item rest hops
        have hs1 := pres_setTxn s { txn with waiting_ops := rest }
          (fun lp it hit => lp txnId txn htxn it hit)
        simp only [] at h
        split at h
        · simp at h
        · rename_i p1 hact
          have hp1 : Pres (setTxn s { txn with waiting_ops := rest }) p1.2 := by
            split at hact
            · exact ihRd _ _ _ _ hact
            · split at hact
              · exact ihWr _ _ _ _ hact
              · split at hact
                · exact ihCm _ _ _ hact
                · simp only [Except.ok.injEq] at hact
                  subst hact
                  exact pres_refl _
          split at h
          · simp at h
          · rename_i txn2 htxn2
            split at h
            · simp only [Except.ok.injEq] at h
              subst h
              exact pres_trans hs1 (pres_trans hp1
                (pres_setTxn p1.2 _ (fun lp it hit => lp txnId txn2 htxn2 it hit)))
            · exact pres_trans hs1 (pres_trans hp1 (ihRl p1.2 txnId p h))
    · simp only [Except.ok.injEq] at h
      subst h
      exact pres_refl s

theorem enginePres : ∀ fuel : Nat,
    (∀ s item txnId txnTs p, get_read_lock fuel s item txnId txnTs = .ok p →
       Pres s p.2 ∧ (getLock p.2 item).isSome = true) ∧
    (∀ s snap i txnId txnTs q, woundLoop fuel s snap i txnId txnTs = .ok q →
       Pres s q.2) ∧
    (∀ s item txnId txnTs p, get_write_lock fuel s item txnId txnTs = .ok p →
       Pres s p.2 ∧ (getLock p.2 item).isSome = true) ∧
    (∀ s item txnId p, read_item fuel s item txnId = .ok p → Pres s p.2) ∧
    (∀ s item txnId p, write_item fuel s item txnId = .ok p → Pres s p.2) ∧
    (∀ s rs s1, restartWaiters fuel s rs = .ok s1 → Pres s s1) ∧
    (∀ s txnId p, commit fuel s txnId = .ok p → Pres s p.2) ∧
    (∀ s txnId p, abort fuel s txnId = .ok p → Pres s p.2) ∧
    (∀ s txnId p, restart fuel s txnId = .ok p → Pres s p.2) ∧
    (∀ s txnId p, restartLoop fuel s txnId = .ok p → Pres s p.2) := by
  intro fuel
  induction fuel with
  | zero =>
    refine ⟨fun s item txnId txnTs p h => ?_, fun s snap i txnId txnTs q h => ?_,
      fun s item txnId txnTs p h => ?_, fun s item txnId p h => ?_,
      fun s item txnId p h => ?_, fun s rs s1 h => ?_, fun s txnId p h => ?_,
      fun s txnId p h => ?_, fun s txnId p h => ?_, fun s txnId p h => ?_⟩ <;>
      simp [get_read_lock, woundLoop, get_write_lock, read_item, write_item,
        restartWaiters, commit, abort, restart, restartLoop] at h
  | succ f ih =>
    obtain ⟨ihGrl, ihWl, ihGwl, ihRd, ihWr, ihRw, ihCm, ihAb, ihRs, ihRl⟩ := ih
    exact ⟨grl_pres f ihAb, wl_pres f ihAb ihWl, gwl_pres f ihAb ihWl,
      rd_pres f ihGrl, wr_pres f ihGwl, rw_pres f ihRs ihRw, cm_pres f ihRw,
      ab_pres f ihRw, rs_pres f ihRl, rl_pres f ihRd ihWr ihCm ihRl⟩

theorem pres_execute_operation (fuel : Nat) (s : EngineState) (op : List Char)
    (s1 : EngineState) (h : execute_operation fuel s op = .ok s1) : Pres s s1 := by
  obtain ⟨ihGrl, ihWl, ihGwl, ihRd, ihWr, ihRw, ihCm, ihAb, ihRs, ihRl⟩ :=
    enginePres fuel
  unfold execute_operation at h
  split at h
  · simp at h
  · split at h
    · simp at h
    · split at h
      · simp at h
      · split at h
        · -- read or write
          split at h
          · simp at h
          · split at h
            · simp at h
            · split at h
              · simp only [] at h
                split at h
                · simp at h
                · rename_i p1 hrd
                  simp only [Except.ok.injEq] at h
                  subst h
                  exact ihRd _ _ _ _ hrd
              · simp only [] at h
                split at h
                · simp at h
                · rename_i p1 hwr
                  simp only [Except.ok.injEq] at h
                  subst h
                  exact ihWr _ _ _ _ hwr
        · split at h
          · -- begin
            simp only [Except.ok.injEq] at h
            subst h
            exact pres_initiate s _
          · split at h
            · -- end / commit
              split at h
              · simp at h
              · split at h
                · simp at h
                · rename_i p1 hcm
                  simp only [Except.ok.injEq] at h
                  subst h
                  exact ihCm _ _ _ hcm
            · simp only [Except.ok.injEq] at h
              subst h
              exact pres_refl s

theorem pres_runOps : ∀ (ops : List (List Char)) (fuel : Nat) (s s1 : EngineState),
    runOps fuel s ops = .ok s1 → Pres s s1 := by
  intro ops
  induction ops with
  | nil =>
    intro fuel s s1 h
    simp only [runOps, Except.ok.injEq] at h
    subst h
    exact pres_refl s
  | cons op rest ih =>
    intro fuel s s1 h
    simp only [runOps] at h
    split at h
    · exact ih fuel s s1 h
    · split at h
      · simp at h
      · rename_i s2 hexec
        exact pres_trans (pres_execute_operation fuel s _ s2 hexec) (ih fuel s2 s1 h)

theorem locksPresent_init (ts0 : Nat) : LocksPresent (initState ts0) := by
  intro id t ht
  simp [getTxn, initState, lookupA] at ht

set_option maxHeartbeats 400000 in
/-- Claim C10, confirmed.  In every reachable state, every item in any
registered transaction's locked-resources set has an entry in the lock table:
entries are created on first acquisition (every branch of `get_read_lock` /
`get_write_lock` leaves one in place) and never removed during a schedule, so
the unguarded `lock_table[resource]` lookups performed by the waiter-restart
loops of `commit` and `abort` always find a lock. -/
theorem c10_confirmed (s : EngineState) (hs : Reachable s) (id : Nat) (t : Txn)
    (ht : getTxn s id = some t) (item : String) (hm : item ∈ t.locked_resources) :
    ∃ l, getLock s item = some l := by
  obtain ⟨ts0, fuel, ops, hrun⟩ := hs
  have hPres := pres_runOps ops fuel (initState ts0) s hrun
  have hLP := hPres.2 (locksPresent_init ts0)
  exact Option.isSome_iff_exists.mp (hLP id t ht item hm)

set_option maxHeartbeats 2000000 in
/-- Witness for `c10_confirmed`: in the reachable state `sC10`, T1 holds x (and
y after wounding T2), and the lock-table entry for x indeed exists. -/
theorem c10_confirmed_witness : ∃ l, getLock sC10 "x" = some l :=
  c10_confirmed sC10 ⟨0, 30, opsC10, rfl⟩ 1 txnC10 rfl "x" (by decide)

end DB
